import Mathlib

/-!
# Chocolate shop API

A shallow embedding of the HTTP handlers of `src/server.js` over the tables
declared in `src/backend/seed.js`.

* The data store is the record `Store`: the tables `chocolates`, `cart` and
  `admins` as lists of rows in insertion order, together with the two
  AUTO_INCREMENT counters the handlers consume.  The `contacts` table and the
  `created_at` columns are left out: no handler modelled here reads them.
* A SQL statement is a function on `Store`; the helper wrappers `allAsync`
  and `getAsync` of `server.js` keep their names, and `runAsync`, which hands
  back the result of a write as it is, is left implicit.
* Ids are naturals and text columns are strings, taken to fit their columns.
  `quantity INT` is an integer in the signed 32-bit range (`fitsInt`): under
  the default strict SQL mode of MySQL a statement that would store a value
  outside that range fails, and the handler answers 500 from its `catch`.
* `bcrypt.compare` and the collation of `admins.username` are parameters
  (`Env`).
* One client session is the record `Session`; `ensureAdmin` and the handlers
  read and write it as `req.session`.
* Every `await` on the database is one atomic statement.  `postCart` is the
  handler run without interruption; `cartCallStep` is the same handler cut at
  its `await`s, used for the interleavings of two calls.
-/

namespace ChocoShop

/-! ## Tables (seed.js) -/

/-- Row of table `chocolates`: `id INT AUTO_INCREMENT PRIMARY KEY`, `name`,
`price` and `img` text. -/
structure Chocolate where
  id : Nat
  name : String
  price : String
  img : String
deriving DecidableEq

/-- Row of table `cart`: `id INT AUTO_INCREMENT PRIMARY KEY`,
`chocolate_id INT NOT NULL` (foreign key into `chocolates`, ON DELETE CASCADE),
`quantity INT DEFAULT 1`.  The statements keep `quantity` within `fitsInt`
(`Store.WF`). -/
structure CartRow where
  id : Nat
  chocolate_id : Nat
  quantity : Int
deriving DecidableEq

/-- Row of table `admins`: `id`, `username` (UNIQUE), `password_hash`. -/
structure Admin where
  id : Nat
  username : String
  password_hash : String
deriving DecidableEq

/-- The data store: three tables and the AUTO_INCREMENT counters of
`chocolates.id` and `cart.id`. -/
structure Store where
  chocolates : List Chocolate
  cart : List CartRow
  admins : List Admin
  nextChocolateId : Nat
  nextCartId : Nat
deriving DecidableEq

/-- Least value of an `INT` column (signed 32-bit). -/
def intMin : Int := -2147483648

/-- Greatest value of an `INT` column (signed 32-bit). -/
def intMax : Int := 2147483647

/-- A value an `INT` column can hold. -/
def fitsInt (v : Int) : Bool := decide (intMin ≤ v) && decide (v ≤ intMax)

/-- The constraints the schema of seed.js puts on a store: AUTO_INCREMENT keys
start at 1 and lie below their counter, primary keys are unique, every cart
row references an existing chocolate, and every `quantity` is in the range of
its `INT` column. -/
def Store.WF (s : Store) : Prop :=
  1 ≤ s.nextChocolateId ∧ 1 ≤ s.nextCartId ∧
  (∀ ch ∈ s.chocolates, 1 ≤ ch.id ∧ ch.id < s.nextChocolateId) ∧
  (∀ r ∈ s.cart, 1 ≤ r.id ∧ r.id < s.nextCartId) ∧
  (s.chocolates.map (fun ch => ch.id)).Nodup ∧
  (s.cart.map (fun r => r.id)).Nodup ∧
  (∀ r ∈ s.cart, ∃ ch ∈ s.chocolates, ch.id = r.chocolate_id) ∧
  (∀ r ∈ s.cart, fitsInt r.quantity = true)

instance (s : Store) : Decidable s.WF := by
  unfold Store.WF; infer_instance

/-! ## Outside the repository -/

/-- The two library behaviours the login handler depends on:
`bcrypt.compare(password, hash)` and the comparison MySQL uses for
`WHERE username = ?` (first argument the stored value, second the parameter). -/
structure Env where
  bcryptCompare : String → String → Bool
  usernameEq : String → String → Bool

/-! ## Helper wrappers (server.js 32-43) -/

/-- The wrapper `allAsync`: all rows of the result set. -/
def allAsync {α : Type} (rows : List α) : List α := rows

/-- The wrapper `getAsync`: `rows[0]`, undefined on an empty result set. -/
def getAsync {α : Type} (rows : List α) : Option α := rows.head?

/-! ## SQL statements -/

/-- Modelled from the spec: the module `./db` (the MySQL connection) is not
among the sources.  Statement `SELECT * FROM cart WHERE chocolate_id = ?`. -/
def cartWhereChocolateId (s : Store) (chocolate_id : Nat) : List CartRow :=
  s.cart.filter (fun r => r.chocolate_id == chocolate_id)

/-- Modelled from the spec: the module `./db` is not among the sources.
Statement `SELECT * FROM cart WHERE id = ?`. -/
def cartWhereId (s : Store) (id : Nat) : List CartRow :=
  s.cart.filter (fun r => r.id == id)

/-- The cart after `SET quantity = quantity + ?` on every row
`WHERE chocolate_id = ?`. -/
def incrementQuantity (s : Store) (quantity : Int) (chocolate_id : Nat) : Store :=
  { s with cart := s.cart.map (fun r =>
      if r.chocolate_id == chocolate_id then { r with quantity := r.quantity + quantity } else r) }

/-- Modelled from the spec: the module `./db` is not among the sources.
Statement `UPDATE cart SET quantity = quantity + ? WHERE chocolate_id = ?`:
every matching row is incremented; if a new quantity would leave the range of
the `INT` column the statement fails and no row is changed. -/
def updateCartQuantity (s : Store) (quantity : Int) (chocolate_id : Nat) : Except String Store :=
  if s.cart.all (fun r => !(r.chocolate_id == chocolate_id) || fitsInt (r.quantity + quantity)) then
    .ok (incrementQuantity s quantity chocolate_id)
  else
    .error "Out of range value for column quantity"

/-- Modelled from the spec: the module `./db` is not among the sources.
Statement `INSERT INTO cart (chocolate_id, quantity) VALUES (?, ?)`: a quantity
outside the range of the `INT` column is rejected, and the foreign key rejects
a chocolate_id with no chocolate; otherwise the row gets the next
AUTO_INCREMENT id, which is returned as `insertId`. -/
def insertCart (s : Store) (chocolate_id : Nat) (quantity : Int) : Except String (Nat × Store) :=
  if !fitsInt quantity then
    .error "Out of range value for column quantity"
  else if s.chocolates.any (fun ch => ch.id == chocolate_id) then
    .ok (s.nextCartId,
      { s with cart := s.cart ++ [⟨s.nextCartId, chocolate_id, quantity⟩],
               nextCartId := s.nextCartId + 1 })
  else
    .error "a foreign key constraint fails"

/-- Modelled from the spec: the module `./db` is not among the sources.
Statement `DELETE FROM cart WHERE id = ?`. -/
def deleteCartWhereId (s : Store) (id : Nat) : Store :=
  { s with cart := s.cart.filter (fun r => !(r.id == id)) }

/-- Modelled from the spec: the module `./db` is not among the sources.
Statement `DELETE FROM chocolates WHERE id = ?`; ON DELETE CASCADE removes the
cart rows that reference the deleted chocolate. -/
def deleteChocolatesWhereId (s : Store) (id : Nat) : Store :=
  { s with chocolates := s.chocolates.filter (fun ch => !(ch.id == id)),
           cart := s.cart.filter (fun r => !(r.chocolate_id == id)) }

/-- Modelled from the spec: the module `./db` is not among the sources.
Statement `INSERT INTO chocolates (name, price, img) VALUES (?,?,?)`. -/
def insertChocolate (s : Store) (name price img : String) : Store :=
  { s with chocolates := s.chocolates ++ [⟨s.nextChocolateId, name, price, img⟩],
           nextChocolateId := s.nextChocolateId + 1 }

/-- One record of the cart listing: `cart.id AS cart_id`, `cart.quantity`,
`c.id AS chocolate_id`, `c.name`, `c.price`, `c.img`. -/
structure CartItem where
  cart_id : Nat
  quantity : Int
  chocolate_id : Nat
  name : String
  price : String
  img : String
deriving DecidableEq

/-- Modelled from the spec: the module `./db` is not among the sources.
Statement `SELECT ... FROM cart JOIN chocolates c ON cart.chocolate_id = c.id`. -/
def cartJoinChocolates (s : Store) : List CartItem :=
  s.cart.flatMap (fun r =>
    (s.chocolates.filter (fun c => r.chocolate_id == c.id)).map
      (fun c => ⟨r.id, r.quantity, c.id, c.name, c.price, c.img⟩))

/-- Modelled from the spec: the module `./db` is not among the sources.
Statement `SELECT * FROM admins WHERE username = ?`. -/
def adminsWhereUsername (env : Env) (s : Store) (username : String) : List Admin :=
  s.admins.filter (fun a => env.usernameEq a.username username)

/-! ## Requests, responses, session -/

/-- The value `req.session.admin` set by a login: `{ id, username }`. -/
structure AdminIdentity where
  id : Nat
  username : String
deriving DecidableEq

/-- The session of one client (`req.session`).  A destroyed session and a
fresh one both have no `admin`. -/
structure Session where
  admin : Option AdminIdentity
deriving DecidableEq

/-- JSON bodies the handlers send. -/
inductive Body where
  /-- The body `{ error: msg }`. -/
  | error (msg : String)
  /-- The body `{ message: msg }`. -/
  | message (msg : String)
  /-- The body `{ success: true }`. -/
  | success
  /-- The body `{ success: true, admin: { id, username } }`. -/
  | loggedIn (admin : AdminIdentity)
  /-- The body `{ admin: req.session.admin }`. -/
  | admin (admin : AdminIdentity)
  /-- A cart row as returned by `getAsync` (nothing when no row was selected). -/
  | row (r : Option CartRow)
  /-- The array of joined cart records. -/
  | cartItems (rows : List CartItem)
deriving DecidableEq

/-- An HTTP response: status code and JSON body. -/
structure Response where
  status : Nat
  body : Body
deriving DecidableEq

/-- JavaScript `!v` for a text field of a JSON body: true when the field is
absent or the empty string. -/
def falsy (v : Option String) : Bool :=
  match v with
  | none => true
  | some x => x == ""

/-- JavaScript `!v` for a numeric field of a JSON body: true when the field is
absent or 0. -/
def falsyId (v : Option Nat) : Bool :=
  match v with
  | none => true
  | some n => n == 0

/-- JavaScript `s.startsWith(p)`. -/
def startsWith (s p : String) : Bool := p.toList.isPrefixOf s.toList

/-- Body of POST /api/add-chocolate: `{name, price, img}`. -/
structure AddChocolateBody where
  name : Option String
  price : Option String
  img : Option String
deriving DecidableEq

/-- Body of POST /api/cart: `{chocolate_id, quantity}`. -/
structure CartBody where
  chocolate_id : Option Nat
  quantity : Option Int
deriving DecidableEq

/-- Body of POST /api/login: `{username, password}`. -/
structure LoginBody where
  username : Option String
  password : Option String
deriving DecidableEq

/-! ## Handlers (server.js) -/

/-- The guard `ensureAdmin` (server.js 201-204): `none` stands for `next()`,
`some res` for the rejection it sends. -/
def ensureAdmin (session : Session) : Option Response :=
  if session.admin.isSome then none else some ⟨401, .error "Admin only"⟩

/-- POST /api/add-chocolate (server.js 59-77).  The route has no guard, so the
session is not an argument. -/
def postAddChocolate (s : Store) (body : AddChocolateBody) : Response × Store :=
  if falsy body.name || falsy body.price || falsy body.img then
    (⟨400, .error "Missing fields"⟩, s)
  else
    let name := body.name.getD ""
    let price := body.price.getD ""
    let img := body.img.getD ""
    if startsWith img "data:image" then
      (⟨400, .error "Image too long. Use short URL instead of Base64."⟩, s)
    else
      (⟨200, .message "Chocolate added"⟩, insertChocolate s name price img)

/-- DELETE /api/chocolates/:id (server.js 90-98), behind `ensureAdmin`. -/
def deleteChocolatesId (s : Store) (session : Session) (id : Nat) : Response × Store :=
  match ensureAdmin session with
  | some res => (res, s)
  | none => (⟨200, .success⟩, deleteChocolatesWhereId s id)

/-- GET /api/cart (server.js 101-113). -/
def getCart (s : Store) : Response :=
  ⟨200, .cartItems (allAsync (cartJoinChocolates s))⟩

/-- POST /api/cart (server.js 116-136). -/
def postCart (s : Store) (body : CartBody) : Response × Store :=
  let quantity := body.quantity.getD 1
  if falsyId body.chocolate_id then
    (⟨400, .error "Missing chocolate_id"⟩, s)
  else
    let chocolate_id := body.chocolate_id.getD 0
    match getAsync (cartWhereChocolateId s chocolate_id) with
    | some _ =>
      match updateCartQuantity s quantity chocolate_id with
      | .error msg => (⟨500, .error msg⟩, s)
      | .ok s1 => (⟨200, .row (getAsync (cartWhereChocolateId s1 chocolate_id))⟩, s1)
    | none =>
      match insertCart s chocolate_id quantity with
      | .error msg => (⟨500, .error msg⟩, s)
      | .ok (insertId, s1) => (⟨201, .row (getAsync (cartWhereId s1 insertId))⟩, s1)

/-- DELETE /api/cart/:id (server.js 139-147). -/
def deleteCartId (s : Store) (id : Nat) : Response × Store :=
  (⟨200, .success⟩, deleteCartWhereId s id)

/-- POST /api/login (server.js 166-184). -/
def postLogin (env : Env) (s : Store) (session : Session) (body : LoginBody) :
    Response × Session :=
  if falsy body.username || falsy body.password then
    (⟨400, .error "Missing username or password"⟩, session)
  else
    let username := body.username.getD ""
    let password := body.password.getD ""
    match getAsync (adminsWhereUsername env s username) with
    | none => (⟨401, .error "Invalid credentials"⟩, session)
    | some admin =>
      if !env.bcryptCompare password admin.password_hash then
        (⟨401, .error "Invalid credentials"⟩, session)
      else
        (⟨200, .loggedIn ⟨admin.id, admin.username⟩⟩,
          { session with admin := some ⟨admin.id, admin.username⟩ })

/-- POST /api/logout (server.js 187-192): the session is destroyed. -/
def postLogout (_session : Session) : Response × Session :=
  (⟨200, .success⟩, ⟨none⟩)

/-- GET /api/me (server.js 195-198). -/
def getMe (session : Session) : Response :=
  match session.admin with
  | some a => ⟨200, .admin a⟩
  | none => ⟨401, .error "Not logged in"⟩

/-! ## The API as a state machine -/

/-- The requests of one client that read or write the store or the session. -/
inductive Request where
  /-- The request POST /api/add-chocolate. -/
  | postAddChocolate (body : AddChocolateBody)
  /-- The request DELETE /api/chocolates/:id. -/
  | deleteChocolatesId (id : Nat)
  /-- The request GET /api/cart. -/
  | getCart
  /-- The request POST /api/cart. -/
  | postCart (body : CartBody)
  /-- The request DELETE /api/cart/:id. -/
  | deleteCartId (id : Nat)
  /-- The request POST /api/login. -/
  | postLogin (body : LoginBody)
  /-- The request POST /api/logout. -/
  | postLogout
  /-- The request GET /api/me. -/
  | getMe

/-- Server state seen by one client: the shared store and the client session. -/
structure State where
  store : Store
  session : Session
deriving DecidableEq

/-- Routing: one request handled to completion. -/
def handle (env : Env) (st : State) : Request → Response × State
  | .postAddChocolate body =>
    let (res, s) := postAddChocolate st.store body
    (res, { st with store := s })
  | .deleteChocolatesId id =>
    let (res, s) := deleteChocolatesId st.store st.session id
    (res, { st with store := s })
  | .getCart => (getCart st.store, st)
  | .postCart body =>
    let (res, s) := postCart st.store body
    (res, { st with store := s })
  | .deleteCartId id =>
    let (res, s) := deleteCartId st.store id
    (res, { st with store := s })
  | .postLogin body =>
    let (res, session) := postLogin env st.store st.session body
    (res, { st with session := session })
  | .postLogout =>
    let (res, session) := postLogout st.session
    (res, { st with session := session })
  | .getMe => (getMe st.session, st)

/-- The state after a sequence of requests, each handled to completion before
the next. -/
def runRequests (env : Env) (st : State) : List Request → State
  | [] => st
  | req :: rest => runRequests env (handle env st req).2 rest

/-! ## POST /api/cart cut at its awaits -/

/-- Where one POST /api/cart call stands between two database statements. -/
inductive CartCall where
  /-- The request has arrived; nothing has run. -/
  | start (body : CartBody)
  /-- After `const existing = await getAsync(...)` (line 121). -/
  | selected (chocolate_id : Nat) (quantity : Int) (existing : Option CartRow)
  /-- After `await runAsync("UPDATE ...")` (line 124). -/
  | updated (chocolate_id : Nat)
  /-- After `const result = await runAsync("INSERT ...")` (line 129). -/
  | inserted (insertId : Nat)
  /-- The response has been sent. -/
  | done (res : Response)
deriving DecidableEq

/-- One database statement of a POST /api/cart call, with the synchronous code
up to the next `await`. -/
def cartCallStep (s : Store) : CartCall → CartCall × Store
  | .start body =>
    let quantity := body.quantity.getD 1
    if falsyId body.chocolate_id then
      (.done ⟨400, .error "Missing chocolate_id"⟩, s)
    else
      let chocolate_id := body.chocolate_id.getD 0
      (.selected chocolate_id quantity (getAsync (cartWhereChocolateId s chocolate_id)), s)
  | .selected chocolate_id quantity (some _) =>
    match updateCartQuantity s quantity chocolate_id with
    | .error msg => (.done ⟨500, .error msg⟩, s)
    | .ok s1 => (.updated chocolate_id, s1)
  | .selected chocolate_id quantity none =>
    match insertCart s chocolate_id quantity with
    | .error msg => (.done ⟨500, .error msg⟩, s)
    | .ok (insertId, s1) => (.inserted insertId, s1)
  | .updated chocolate_id =>
    (.done ⟨200, .row (getAsync (cartWhereChocolateId s chocolate_id))⟩, s)
  | .inserted insertId =>
    (.done ⟨201, .row (getAsync (cartWhereId s insertId))⟩, s)
  | .done res => (.done res, s)

/-- Two POST /api/cart calls in flight over one store. -/
structure TwoCalls where
  store : Store
  first : CartCall
  second : CartCall
deriving DecidableEq

/-- The event loop runs the next statement of the first call (`false`) or of the
second call (`true`). -/
def twoCallsStep (t : TwoCalls) (who : Bool) : TwoCalls :=
  if who then
    let (c, s) := cartCallStep t.store t.second
    { t with store := s, second := c }
  else
    let (c, s) := cartCallStep t.store t.first
    { t with store := s, first := c }

/-- An interleaving: the order in which the statements of the two calls run. -/
def runSchedule (t : TwoCalls) (schedule : List Bool) : TwoCalls :=
  schedule.foldl twoCallsStep t

/-- One call run alone for `n` statements. -/
def runCall (s : Store) (call : CartCall) : Nat → CartCall × Store
  | 0 => (call, s)
  | n + 1 => runCall (cartCallStep s call).2 (cartCallStep s call).1 n

/-- Number of cart rows for a chocolate. -/
def rowsFor (s : Store) (chocolate_id : Nat) : Nat :=
  (cartWhereChocolateId s chocolate_id).length

/-- A call that has run its write statement (or has answered): it runs no
further write. -/
def CartCall.quiet : CartCall → Prop
  | .updated _ => True
  | .inserted _ => True
  | .done _ => True
  | _ => False

/-- A call whose pending write cannot add a second row for `chocolate_id`: if
it has selected no existing row for that chocolate, the cart still has none. -/
def CartCall.safe (s : Store) (chocolate_id : Nat) : CartCall → Prop
  | .selected c _ none => c = chocolate_id → rowsFor s chocolate_id = 0
  | _ => True

/-- The invariant of an interleaving in which one call is past its write. -/
def TwoCalls.serialised (t : TwoCalls) (c : Nat) : Prop :=
  rowsFor t.store c ≤ 1 ∧
  ((t.first.quiet ∧ t.second.safe t.store c) ∨ (t.second.quiet ∧ t.first.safe t.store c))

/-- The invariant of an interleaving over a cart that already holds one row for
the chocolate: no call is about to insert a second one. -/
def TwoCalls.occupied (t : TwoCalls) (c : Nat) : Prop :=
  rowsFor t.store c = 1 ∧ t.first.safe t.store c ∧ t.second.safe t.store c

end ChocoShop

/-! ## Example data -/

namespace ChocoShop

/-- A store as the seed script leaves it, cut down to one chocolate: an empty
cart and the admin `admin`. -/
def seedStore : Store :=
  ⟨[⟨3, "Dark Chocolate", "₹120", "images/chocolate1.jpg"⟩], [],
   [⟨1, "admin", "hash(admin123)"⟩], 4, 1⟩

/-- A stand-in for the libraries: a hash of `p` is `hash(p)`, usernames compare
exactly. -/
def testEnv : Env :=
  ⟨fun password hash => hash == "hash(" ++ password ++ ")", fun a b => a == b⟩

end ChocoShop

/-! ## Lemmas on the wrappers and statements -/

namespace ChocoShop

theorem getAsync_filter_eq_none {α : Type} (p : α → Bool) (l : List α) :
    getAsync (l.filter p) = none ↔ ∀ x ∈ l, p x = false := by
  induction l with
  | nil => simp [getAsync]
  | cons a l ih =>
    by_cases h : p a = true
    · simp [getAsync, List.filter_cons, h]
    · simp only [Bool.not_eq_true] at h
      simp only [getAsync] at ih
      simp [getAsync, List.filter_cons, h, ih]

theorem getAsync_filter_eq_some {α : Type} (p : α → Bool) (l : List α) (x : α)
    (h : getAsync (l.filter p) = some x) : x ∈ l ∧ p x = true := by
  have hx : x ∈ l.filter p := by
    unfold getAsync at h
    exact List.mem_of_mem_head? h
  exact List.mem_filter.mp hx

theorem falsy_some_of_ne (x : String) (h : x ≠ "") : falsy (some x) = false := by
  simp [falsy, h]

end ChocoShop

/-! ## Catalog routes -/

namespace ChocoShop

/-- C2, evaluated on the code: an anonymous session posts a complete body to
POST /api/add-chocolate; the handler answers 200 "Chocolate added" and the
chocolate is inserted, where the claim asks for 401 and no insert. -/
theorem handle_postAddChocolate_anonymous_inserts :
    handle testEnv ⟨seedStore, ⟨none⟩⟩
        (.postAddChocolate ⟨some "Milk Chocolate", some "₹100", some "images/chocolate2.jpg"⟩)
      = (⟨200, .message "Chocolate added"⟩,
         ⟨{ seedStore with
              chocolates := seedStore.chocolates ++
                [⟨4, "Milk Chocolate", "₹100", "images/chocolate2.jpg"⟩],
              nextChocolateId := 5 },
          ⟨none⟩⟩) := by
  decide

/-- C3: for every id and every store, DELETE /api/chocolates/:id from a session
with no admin bound is answered 401 "Admin only" by the guard, and the whole
server state (chocolates, cart, session) is the one before the call. -/
theorem handle_deleteChocolatesId_anonymous (env : Env) (s : Store) (id : Nat) :
    handle env ⟨s, ⟨none⟩⟩ (.deleteChocolatesId id)
      = (⟨401, .error "Admin only"⟩, ⟨s, ⟨none⟩⟩) := by
  rfl

/-- C4: POST /api/add-chocolate answers 400 with an error body and leaves the
store as it was whenever name, price or img is absent or empty, and whenever
img begins with "data:image". -/
theorem postAddChocolate_rejects (s : Store) (name price img : Option String)
    (h : falsy name = true ∨ falsy price = true ∨ falsy img = true ∨
      startsWith (img.getD "") "data:image" = true) :
    ∃ msg, postAddChocolate s ⟨name, price, img⟩ = (⟨400, .error msg⟩, s) := by
  unfold postAddChocolate
  by_cases hm : (falsy name || falsy price || falsy img) = true
  · exact ⟨"Missing fields", by rw [if_pos hm]⟩
  · have hs : startsWith (img.getD "") "data:image" = true := by
      simp only [Bool.or_eq_true, not_or, Bool.not_eq_true] at hm
      rcases h with h | h | h | h
      · simp [hm.1.1] at h
      · simp [hm.1.2] at h
      · simp [hm.2] at h
      · exact h
    exact ⟨"Image too long. Use short URL instead of Base64.", by
      rw [if_neg hm]; simp only [hs, if_true]⟩

/-- Witness for C4: an inline image and a missing name are both rejected. -/
theorem postAddChocolate_rejects_witness :
    (∃ msg, postAddChocolate seedStore
        ⟨some "Milk Chocolate", some "₹100", some "data:image/png;base64,iVBORw0KGgo="⟩
      = (⟨400, .error msg⟩, seedStore)) ∧
    (∃ msg, postAddChocolate seedStore ⟨none, some "₹100", some "images/chocolate2.jpg"⟩
      = (⟨400, .error msg⟩, seedStore)) :=
  ⟨postAddChocolate_rejects seedStore _ _ _ (Or.inr (Or.inr (Or.inr (by decide)))),
   postAddChocolate_rejects seedStore _ _ _ (Or.inl (by decide))⟩

end ChocoShop

/-! ## Login, logout, who am I -/

namespace ChocoShop

/-- C5: for a non-empty username and password, the login answer when no admin
has the username (store `s₁`) and the answer when the admin exists but the
password does not match its hash (store `s₂`) are the same response, 401
"Invalid credentials", and neither call changes the session: an anonymous
session stays anonymous. -/
theorem postLogin_failures_indistinguishable (env : Env) (s₁ s₂ : Store)
    (session₁ session₂ : Session) (username password : String) (a : Admin)
    (hu : username ≠ "") (hp : password ≠ "")
    (hnone : ∀ b ∈ s₁.admins, env.usernameEq b.username username = false)
    (ha : a ∈ s₂.admins) (hname : env.usernameEq a.username username = true)
    (huniq : ∀ b ∈ s₂.admins, env.usernameEq b.username username = true → b = a)
    (hbad : env.bcryptCompare password a.password_hash = false) :
    (postLogin env s₁ session₁ ⟨some username, some password⟩).1
        = (postLogin env s₂ session₂ ⟨some username, some password⟩).1 ∧
    postLogin env s₁ session₁ ⟨some username, some password⟩
        = (⟨401, .error "Invalid credentials"⟩, session₁) ∧
    postLogin env s₂ session₂ ⟨some username, some password⟩
        = (⟨401, .error "Invalid credentials"⟩, session₂) := by
  have h1 : getAsync (adminsWhereUsername env s₁ username) = none :=
    (getAsync_filter_eq_none _ _).mpr hnone
  have h2 : getAsync (adminsWhereUsername env s₂ username) = some a := by
    cases hg : getAsync (adminsWhereUsername env s₂ username) with
    | none =>
      have := (getAsync_filter_eq_none _ _).mp hg a ha
      rw [hname] at this
      cases this
    | some b =>
      have hb := getAsync_filter_eq_some _ _ _ hg
      rw [huniq b hb.1 hb.2]
  have e1 : postLogin env s₁ session₁ ⟨some username, some password⟩
      = (⟨401, .error "Invalid credentials"⟩, session₁) := by
    simp [postLogin, falsy_some_of_ne, hu, hp, h1]
  have e2 : postLogin env s₂ session₂ ⟨some username, some password⟩
      = (⟨401, .error "Invalid credentials"⟩, session₂) := by
    simp [postLogin, falsy_some_of_ne, hu, hp, h2, hbad]
  exact ⟨by rw [e1, e2], e1, e2⟩

/-- Witness for C5: an unknown username and a wrong password for `admin`. -/
theorem postLogin_failures_indistinguishable_witness :
    (postLogin testEnv { seedStore with admins := [] } ⟨none⟩ ⟨some "admin", some "wrong"⟩).1
        = (postLogin testEnv seedStore ⟨none⟩ ⟨some "admin", some "wrong"⟩).1 ∧
    postLogin testEnv { seedStore with admins := [] } ⟨none⟩ ⟨some "admin", some "wrong"⟩
        = (⟨401, .error "Invalid credentials"⟩, ⟨none⟩) ∧
    postLogin testEnv seedStore ⟨none⟩ ⟨some "admin", some "wrong"⟩
        = (⟨401, .error "Invalid credentials"⟩, ⟨none⟩) :=
  postLogin_failures_indistinguishable testEnv { seedStore with admins := [] } seedStore
    ⟨none⟩ ⟨none⟩ "admin" "wrong" ⟨1, "admin", "hash(admin123)"⟩
    (by decide) (by decide) (by decide) (by decide) (by decide) (by decide) (by decide)

/-- C6: after a login that succeeds for admin `a`, GET /api/me on the same
session answers 200 with exactly the id and username of `a`; after a logout,
from any state, GET /api/me answers 401 "Not logged in". -/
theorem login_me_logout_me (env : Env) (st : State) (username password : String) (a : Admin)
    (hu : username ≠ "") (hp : password ≠ "")
    (ha : a ∈ st.store.admins) (hname : env.usernameEq a.username username = true)
    (huniq : ∀ b ∈ st.store.admins, env.usernameEq b.username username = true → b = a)
    (hok : env.bcryptCompare password a.password_hash = true) :
    (handle env st (.postLogin ⟨some username, some password⟩)).1
        = ⟨200, .loggedIn ⟨a.id, a.username⟩⟩ ∧
    (handle env (handle env st (.postLogin ⟨some username, some password⟩)).2 .getMe).1
        = ⟨200, .admin ⟨a.id, a.username⟩⟩ ∧
    ∀ st' : State, (handle env st' .postLogout).1 = ⟨200, .success⟩ ∧
      (handle env (handle env st' .postLogout).2 .getMe).1
        = ⟨401, .error "Not logged in"⟩ := by
  have h2 : getAsync (adminsWhereUsername env st.store username) = some a := by
    cases hg : getAsync (adminsWhereUsername env st.store username) with
    | none =>
      have := (getAsync_filter_eq_none _ _).mp hg a ha
      rw [hname] at this
      cases this
    | some b =>
      have hb := getAsync_filter_eq_some _ _ _ hg
      rw [huniq b hb.1 hb.2]
  have e : postLogin env st.store st.session ⟨some username, some password⟩
      = (⟨200, .loggedIn ⟨a.id, a.username⟩⟩, ⟨some ⟨a.id, a.username⟩⟩) := by
    simp [postLogin, falsy_some_of_ne, hu, hp, h2, hok]
  refine ⟨?_, ?_, ?_⟩
  · simp [handle, e]
  · simp [handle, e, getMe]
  · intro st'
    exact ⟨rfl, rfl⟩

/-- Witness for C6: `admin` logs in with the seeded password. -/
theorem login_me_logout_me_witness :
    (handle testEnv ⟨seedStore, ⟨none⟩⟩ (.postLogin ⟨some "admin", some "admin123"⟩)).1
        = ⟨200, .loggedIn ⟨1, "admin"⟩⟩ ∧
    (handle testEnv (handle testEnv ⟨seedStore, ⟨none⟩⟩
        (.postLogin ⟨some "admin", some "admin123"⟩)).2 .getMe).1
        = ⟨200, .admin ⟨1, "admin"⟩⟩ ∧
    ∀ st' : State, (handle testEnv st' .postLogout).1 = ⟨200, .success⟩ ∧
      (handle testEnv (handle testEnv st' .postLogout).2 .getMe).1
        = ⟨401, .error "Not logged in"⟩ :=
  login_me_logout_me testEnv ⟨seedStore, ⟨none⟩⟩ "admin" "admin123" ⟨1, "admin", "hash(admin123)"⟩
    (by decide) (by decide) (by decide) (by decide) (by decide) (by decide)

end ChocoShop

/-! ## Cart statements -/

namespace ChocoShop

theorem cartWhereChocolateId_increment (s : Store) (q : Int) (c d : Nat) :
    cartWhereChocolateId (incrementQuantity s q c) d
      = (cartWhereChocolateId s d).map (fun r =>
          if r.chocolate_id == c then { r with quantity := r.quantity + q } else r) := by
  unfold cartWhereChocolateId incrementQuantity
  simp only
  rw [List.filter_map]
  congr 1
  apply List.filter_congr
  intro x _
  simp only [Function.comp]
  split <;> rfl

theorem updateCartQuantity_eq_ok (s s1 : Store) (q : Int) (c : Nat)
    (h : updateCartQuantity s q c = .ok s1) : s1 = incrementQuantity s q c := by
  unfold updateCartQuantity at h
  split at h
  · injection h with h
    exact h.symm
  · cases h

theorem updateCartQuantity_ok (s : Store) (q : Int) (c : Nat)
    (hfit : ∀ x ∈ s.cart, x.chocolate_id = c → fitsInt (x.quantity + q) = true) :
    updateCartQuantity s q c = .ok (incrementQuantity s q c) := by
  unfold updateCartQuantity
  have : s.cart.all (fun r => !(r.chocolate_id == c) || fitsInt (r.quantity + q)) = true := by
    rw [List.all_eq_true]
    intro x hx
    by_cases hc : x.chocolate_id = c
    · simp [hc, hfit x hx hc]
    · simp [hc]
  rw [if_pos this]

theorem cartWhereChocolateId_insert (s s1 : Store) (c d insertId : Nat) (q : Int)
    (h : insertCart s c q = .ok (insertId, s1)) :
    insertId = s.nextCartId ∧ s1.chocolates = s.chocolates ∧
    s1.cart = s.cart ++ [⟨s.nextCartId, c, q⟩] ∧
    cartWhereChocolateId s1 d
      = cartWhereChocolateId s d ++ (if c = d then [⟨s.nextCartId, c, q⟩] else []) := by
  unfold insertCart at h
  split at h
  · cases h
  · split at h
    · injection h with h
      injection h with h1 h2
      subst h1 h2
      refine ⟨rfl, rfl, rfl, ?_⟩
      by_cases hcd : c = d <;> simp [cartWhereChocolateId, List.filter_append, hcd]
    · cases h

theorem insertCart_ok (s : Store) (c : Nat) (q : Int) (hfit : fitsInt q = true)
    (hex : ∃ ch ∈ s.chocolates, ch.id = c) :
    insertCart s c q = .ok (s.nextCartId,
      { s with cart := s.cart ++ [⟨s.nextCartId, c, q⟩], nextCartId := s.nextCartId + 1 }) := by
  unfold insertCart
  have : s.chocolates.any (fun ch => ch.id == c) = true := by
    simpa [List.any_eq_true] using hex
  simp only [hfit, Bool.not_true, Bool.false_eq_true, if_false, this, if_true]

theorem insertCart_fits (s s1 : Store) (c insertId : Nat) (q : Int)
    (h : insertCart s c q = .ok (insertId, s1)) : fitsInt q = true := by
  unfold insertCart at h
  split at h
  · cases h
  · rename_i hq
    simpa using hq

theorem cartWhereId_fresh (s s1 : Store) (row : CartRow)
    (hcart : s1.cart = s.cart ++ [row]) (hfresh : ∀ r ∈ s.cart, r.id < row.id) :
    getAsync (cartWhereId s1 row.id) = some row := by
  have hnil : s.cart.filter (fun r => r.id == row.id) = [] := by
    rw [List.filter_eq_nil_iff]
    intro r hr
    have := hfresh r hr
    simp only [beq_iff_eq]
    omega
  simp [cartWhereId, getAsync, hcart, List.filter_append, hnil]

theorem postCart_of_selected (s : Store) (c : Nat) (q : Option Int) (r : CartRow)
    (hpos : falsyId (some c) = false) (h : getAsync (cartWhereChocolateId s c) = some r)
    (hfit : ∀ x ∈ s.cart, x.chocolate_id = c → fitsInt (x.quantity + q.getD 1) = true) :
    postCart s ⟨some c, q⟩
      = (⟨200, .row (getAsync (cartWhereChocolateId (incrementQuantity s (q.getD 1) c) c))⟩,
         incrementQuantity s (q.getD 1) c) := by
  simp only [postCart, hpos, Option.getD_some, h, updateCartQuantity_ok s _ c hfit]
  rfl

theorem chocolate_id_pos (s : Store) (c : Nat) (hwf : s.WF)
    (hex : ∃ ch ∈ s.chocolates, ch.id = c) : falsyId (some c) = false := by
  obtain ⟨ch, hch, rfl⟩ := hex
  have := (hwf.2.2.1 ch hch).1
  simp only [falsyId, beq_eq_false_iff_ne, ne_eq]
  omega

theorem postCart_created (s : Store) (c : Nat) (q : Option Int) (hwf : s.WF)
    (hex : ∃ ch ∈ s.chocolates, ch.id = c) (hno : ∀ r ∈ s.cart, r.chocolate_id ≠ c)
    (hfit : fitsInt (q.getD 1) = true) :
    postCart s ⟨some c, q⟩
      = (⟨201, .row (some ⟨s.nextCartId, c, q.getD 1⟩)⟩,
         { s with cart := s.cart ++ [⟨s.nextCartId, c, q.getD 1⟩],
                  nextCartId := s.nextCartId + 1 }) := by
  have hpos := chocolate_id_pos s c hwf hex
  have hsel : getAsync (cartWhereChocolateId s c) = none :=
    (getAsync_filter_eq_none _ _).mpr (by simpa using hno)
  have hfresh := cartWhereId_fresh s
    { s with cart := s.cart ++ [⟨s.nextCartId, c, q.getD 1⟩], nextCartId := s.nextCartId + 1 }
    ⟨s.nextCartId, c, q.getD 1⟩ rfl (fun r hr => (hwf.2.2.2.1 r hr).2)
  simp only [postCart, hpos, Option.getD_some, hsel, insertCart_ok s c _ hfit hex]
  rw [hfresh]
  rfl

end ChocoShop

/-! ## Cart routes -/

namespace ChocoShop

/-- C9: after DELETE /api/chocolates/c by a session with an admin bound, the
call has answered success, no cart row references `c`, GET /api/cart lists no
record with chocolate_id `c`, and for every other chocolate the cart rows that
reference it are the ones from before, in the same order. -/
theorem deleteChocolatesId_cascade (s : Store) (a : AdminIdentity) (c : Nat) :
    (deleteChocolatesId s ⟨some a⟩ c).1 = ⟨200, .success⟩ ∧
    (∀ r ∈ (deleteChocolatesId s ⟨some a⟩ c).2.cart, r.chocolate_id ≠ c) ∧
    (∃ items, getCart (deleteChocolatesId s ⟨some a⟩ c).2 = ⟨200, .cartItems items⟩ ∧
      ∀ item ∈ items, item.chocolate_id ≠ c) ∧
    (∀ d, d ≠ c →
      cartWhereChocolateId (deleteChocolatesId s ⟨some a⟩ c).2 d = cartWhereChocolateId s d) := by
  have e : deleteChocolatesId s ⟨some a⟩ c = (⟨200, .success⟩, deleteChocolatesWhereId s c) := rfl
  rw [e]
  refine ⟨rfl, ?_, ⟨_, rfl, ?_⟩, ?_⟩
  · intro r hr
    simp only [deleteChocolatesWhereId, List.mem_filter] at hr
    simpa using hr.2
  · intro item hitem
    simp only [allAsync, cartJoinChocolates, deleteChocolatesWhereId, List.mem_flatMap,
      List.mem_map, List.mem_filter] at hitem
    obtain ⟨r, _, ch, ⟨⟨_, hne⟩, _⟩, rfl⟩ := hitem
    simpa using hne
  · intro d hd
    simp only [cartWhereChocolateId, deleteChocolatesWhereId, List.filter_filter]
    apply List.filter_congr
    intro r _
    by_cases h : r.chocolate_id = d
    · simp [h, hd]
    · simp [h]

/-- C7 as stated fails: a quantity the `INT` column cannot hold is not stored.
On the seeded store, POST /api/cart with chocolate_id 3 and quantity 3000000000
answers 500 and creates no row; on a cart whose row for chocolate 3 has
quantity 2147483647, a further quantity 1 answers 500 and the row stays as it
was. -/
theorem postCart_out_of_range :
    postCart seedStore ⟨some 3, some 3000000000⟩
      = (⟨500, .error "Out of range value for column quantity"⟩, seedStore) ∧
    postCart { seedStore with cart := [⟨1, 3, 2147483647⟩], nextCartId := 2 } ⟨some 3, some 1⟩
      = (⟨500, .error "Out of range value for column quantity"⟩,
         { seedStore with cart := [⟨1, 3, 2147483647⟩], nextCartId := 2 }) := by
  decide

/-- C7 amended: POST /api/cart with a chocolate_id `c` that references an
existing chocolate and quantity `q` (1 when omitted).  With no cart row for `c`
and `q` in the range of the `INT` column, the call answers 201 with the new row
`(new id, c, q)` and the cart gains exactly that row.  With a row `r` selected
for `c` and, for every row of `c`, its quantity plus `q` in the range of the
`INT` column, the call answers 200 with `r` at quantity `r.quantity + q`, and
the cart keeps its length and its row ids.  With chocolate_id absent the call
answers 400 and the store is unchanged. -/
theorem postCart_upsert (s : Store) (c : Nat) (q : Option Int) (hwf : s.WF)
    (hex : ∃ ch ∈ s.chocolates, ch.id = c) :
    ((∀ r ∈ s.cart, r.chocolate_id ≠ c) → fitsInt (q.getD 1) = true →
      postCart s ⟨some c, q⟩
        = (⟨201, .row (some ⟨s.nextCartId, c, q.getD 1⟩)⟩,
           { s with cart := s.cart ++ [⟨s.nextCartId, c, q.getD 1⟩],
                    nextCartId := s.nextCartId + 1 })) ∧
    (∀ r, getAsync (cartWhereChocolateId s c) = some r →
      (∀ x ∈ s.cart, x.chocolate_id = c → fitsInt (x.quantity + q.getD 1) = true) →
      r ∈ s.cart ∧ r.chocolate_id = c ∧
      (postCart s ⟨some c, q⟩).1
        = ⟨200, .row (some { r with quantity := r.quantity + q.getD 1 })⟩ ∧
      { r with quantity := r.quantity + q.getD 1 } ∈ (postCart s ⟨some c, q⟩).2.cart ∧
      (postCart s ⟨some c, q⟩).2.cart.length = s.cart.length ∧
      (postCart s ⟨some c, q⟩).2.cart.map (fun x => x.id) = s.cart.map (fun x => x.id) ∧
      (postCart s ⟨some c, q⟩).2.nextCartId = s.nextCartId) ∧
    postCart s ⟨none, q⟩ = (⟨400, .error "Missing chocolate_id"⟩, s) := by
  have hpos := chocolate_id_pos s c hwf hex
  refine ⟨?_, ?_, rfl⟩
  · exact postCart_created s c q hwf hex
  · intro r hr hfit
    have hmem := getAsync_filter_eq_some _ _ _ hr
    have hrc : r.chocolate_id = c := by simpa using hmem.2
    have hup := cartWhereChocolateId_increment s (q.getD 1) c c
    have hres : getAsync (cartWhereChocolateId (incrementQuantity s (q.getD 1) c) c)
        = some { r with quantity := r.quantity + q.getD 1 } := by
      rw [hup]
      cases hl : cartWhereChocolateId s c with
      | nil => simp [getAsync, hl] at hr
      | cons x xs =>
        simp only [getAsync, hl, List.head?_cons, Option.some.injEq] at hr
        subst hr
        simp [getAsync, hrc]
    have e := postCart_of_selected s c q r hpos hr hfit
    rw [hres] at e
    rw [e]
    refine ⟨hmem.1, hrc, rfl, ?_, ?_, ?_, rfl⟩
    · have := getAsync_filter_eq_some _ _ _ hres
      exact this.1
    · simp [incrementQuantity]
    · simp only [incrementQuantity, List.map_map]
      apply List.map_congr_left
      intro x _
      simp only [Function.comp]
      split <;> rfl

/-- Witness for C7 amended: the scenario of the specification, chocolate 3 with
quantity 2 on the empty cart, then once more on the cart that holds the row. -/
theorem postCart_upsert_witness :
    postCart seedStore ⟨some 3, some 2⟩
      = (⟨201, .row (some ⟨1, 3, 2⟩)⟩, { seedStore with cart := [⟨1, 3, 2⟩], nextCartId := 2 }) ∧
    (postCart { seedStore with cart := [⟨1, 3, 2⟩], nextCartId := 2 } ⟨some 3, some 2⟩).1
      = ⟨200, .row (some ⟨1, 3, 4⟩)⟩ :=
  ⟨(postCart_upsert seedStore 3 (some 2) (by decide) (by decide)).1 (by decide) (by decide),
   ((postCart_upsert { seedStore with cart := [⟨1, 3, 2⟩], nextCartId := 2 } 3 (some 2)
      (by decide) (by decide)).2.1 ⟨1, 3, 2⟩ (by decide) (by decide)).2.2.1⟩

/-- C1 as stated fails: on the seeded store, two POST /api/cart calls for
chocolate 3 with quantities 2147483647 and 1 answer 201 and then 500; the one
row for chocolate 3 keeps quantity 2147483647, not the sum 2147483648, which
the `INT` column cannot hold. -/
theorem postCart_twice_out_of_range :
    (handle testEnv ⟨seedStore, ⟨none⟩⟩ (.postCart ⟨some 3, some 2147483647⟩)).1
      = ⟨201, .row (some ⟨1, 3, 2147483647⟩)⟩ ∧
    (handle testEnv (handle testEnv ⟨seedStore, ⟨none⟩⟩
        (.postCart ⟨some 3, some 2147483647⟩)).2 (.postCart ⟨some 3, some 1⟩)).1
      = ⟨500, .error "Out of range value for column quantity"⟩ ∧
    cartWhereChocolateId
        (runRequests testEnv ⟨seedStore, ⟨none⟩⟩
          [.postCart ⟨some 3, some 2147483647⟩, .postCart ⟨some 3, some 1⟩]).store 3
      = [⟨1, 3, 2147483647⟩] ∧
    ¬ cartWhereChocolateId
        (runRequests testEnv ⟨seedStore, ⟨none⟩⟩
          [.postCart ⟨some 3, some 2147483647⟩, .postCart ⟨some 3, some 1⟩]).store 3
      = [⟨1, 3, 2147483647 + 1⟩] := by
  decide

/-- C1 amended: from a store whose cart has no row for `c`, where `c`
references an existing chocolate, two POST /api/cart calls in sequence with
quantities `q1` and `q2` (1 each when omitted), where `q1` and `q1 + q2` are in
the range of the `INT` column, leave exactly one cart row for `c`, and its
quantity is the sum of the two; with both quantities omitted it is 2. -/
theorem postCart_twice (env : Env) (s : Store) (session : Session) (c : Nat) (q1 q2 : Option Int)
    (hwf : s.WF) (hex : ∃ ch ∈ s.chocolates, ch.id = c)
    (hno : ∀ r ∈ s.cart, r.chocolate_id ≠ c)
    (hfit1 : fitsInt (q1.getD 1) = true) (hfit2 : fitsInt (q1.getD 1 + q2.getD 1) = true) :
    cartWhereChocolateId
        (runRequests env ⟨s, session⟩ [.postCart ⟨some c, q1⟩, .postCart ⟨some c, q2⟩]).store c
      = [⟨s.nextCartId, c, q1.getD 1 + q2.getD 1⟩] ∧
    cartWhereChocolateId
        (runRequests env ⟨s, session⟩ [.postCart ⟨some c, none⟩, .postCart ⟨some c, none⟩]).store c
      = [⟨s.nextCartId, c, 2⟩] := by
  have key : ∀ p1 p2 : Option Int, fitsInt (p1.getD 1) = true →
      fitsInt (p1.getD 1 + p2.getD 1) = true → cartWhereChocolateId
        (runRequests env ⟨s, session⟩ [.postCart ⟨some c, p1⟩, .postCart ⟨some c, p2⟩]).store c
      = [⟨s.nextCartId, c, p1.getD 1 + p2.getD 1⟩] := by
    intro p1 p2 hp1 hp2
    have hpos := chocolate_id_pos s c hwf hex
    have h1 := postCart_created s c p1 hwf hex hno hp1
    have hnil : cartWhereChocolateId s c = [] := by
      simp only [cartWhereChocolateId, List.filter_eq_nil_iff]
      intro r hr
      simpa using hno r hr
    have hsel := (cartWhereChocolateId_insert s _ c c _ (p1.getD 1)
      (insertCart_ok s c _ hp1 hex)).2.2.2
    rw [hnil, if_pos rfl, List.nil_append] at hsel
    simp only [runRequests, handle, h1]
    rw [postCart_of_selected _ c p2 _ hpos (by rw [hsel]; rfl) (by
      intro x hx hxc
      simp only [List.mem_append, List.mem_singleton] at hx
      rcases hx with hx | rfl
      · exact absurd hxc (hno x hx)
      · exact hp2)]
    simp only [cartWhereChocolateId_increment, hsel]
    simp
  exact ⟨key q1 q2 hfit1 hfit2, by simpa using key none none (by decide) (by decide)⟩

/-- Witness for C1 amended: quantities 2 and 5 for chocolate 3 on the seeded
store. -/
theorem postCart_twice_witness :
    cartWhereChocolateId
        (runRequests testEnv ⟨seedStore, ⟨none⟩⟩
          [.postCart ⟨some 3, some 2⟩, .postCart ⟨some 3, some 5⟩]).store 3
      = [⟨1, 3, 7⟩] ∧
    cartWhereChocolateId
        (runRequests testEnv ⟨seedStore, ⟨none⟩⟩
          [.postCart ⟨some 3, none⟩, .postCart ⟨some 3, none⟩]).store 3
      = [⟨1, 3, 2⟩] :=
  postCart_twice testEnv seedStore ⟨none⟩ 3 (some 2) (some 5) (by decide) (by decide) (by decide)
    (by decide) (by decide)

end ChocoShop

/-! ## Quantities in the cart -/

namespace ChocoShop

theorem postAddChocolate_cart (s : Store) (body : AddChocolateBody) :
    (postAddChocolate s body).2.cart = s.cart := by
  unfold postAddChocolate
  split
  · rfl
  · simp only
    split <;> rfl

theorem postCart_quantity (s : Store) (body : CartBody)
    (hinv : ∀ r ∈ s.cart, 1 ≤ r.quantity) (hq : 1 ≤ body.quantity.getD 1) :
    ∀ r ∈ (postCart s body).2.cart, 1 ≤ r.quantity := by
  unfold postCart
  simp only
  by_cases hf : falsyId body.chocolate_id = true
  · rw [if_pos hf]
    exact hinv
  · rw [if_neg hf]
    cases hsel : getAsync (cartWhereChocolateId s (body.chocolate_id.getD 0)) with
    | some x =>
      cases hup : updateCartQuantity s (body.quantity.getD 1) (body.chocolate_id.getD 0) with
      | error msg => exact hinv
      | ok s1 =>
        intro r hr
        simp only [updateCartQuantity_eq_ok s s1 _ _ hup, incrementQuantity, List.mem_map] at hr
        obtain ⟨x, hx, rfl⟩ := hr
        have := hinv x hx
        split
        · simp only
          omega
        · exact this
    | none =>
      cases hins : insertCart s (body.chocolate_id.getD 0) (body.quantity.getD 1) with
      | error msg => exact hinv
      | ok p =>
        obtain ⟨insertId, s1⟩ := p
        have hc := (cartWhereChocolateId_insert s s1 _ 0 insertId _ hins).2.2.1
        intro r hr
        simp only [hc, List.mem_append, List.mem_singleton] at hr
        rcases hr with hr | rfl
        · exact hinv r hr
        · exact hq

theorem handle_quantity (env : Env) (st : State) (req : Request)
    (hinv : ∀ r ∈ st.store.cart, 1 ≤ r.quantity)
    (hq : ∀ body, req = .postCart body → 1 ≤ body.quantity.getD 1) :
    ∀ r ∈ (handle env st req).2.store.cart, 1 ≤ r.quantity := by
  cases req with
  | postAddChocolate body =>
    simp only [handle, postAddChocolate_cart]
    exact hinv
  | deleteChocolatesId id =>
    intro r hr
    simp only [handle, deleteChocolatesId] at hr
    split at hr
    · exact hinv r hr
    · exact hinv r (List.mem_of_mem_filter hr)
  | getCart => exact hinv
  | postCart body => exact postCart_quantity st.store body hinv (hq body rfl)
  | deleteCartId id =>
    intro r hr
    exact hinv r (List.mem_of_mem_filter hr)
  | postLogin body => exact hinv
  | postLogout => exact hinv
  | getMe => exact hinv

/-- C8 as stated fails: on the seeded store with its empty cart, one
POST /api/cart with chocolate_id 3 and quantity 0 is accepted with 201 and
leaves a cart row of quantity 0. -/
theorem cart_quantity_zero_reachable :
    (handle testEnv ⟨seedStore, ⟨none⟩⟩ (.postCart ⟨some 3, some 0⟩)).1
      = ⟨201, .row (some ⟨1, 3, 0⟩)⟩ ∧
    (runRequests testEnv ⟨seedStore, ⟨none⟩⟩ [.postCart ⟨some 3, some 0⟩]).store.cart
      = [⟨1, 3, 0⟩] ∧
    ¬ ∀ r ∈ (runRequests testEnv ⟨seedStore, ⟨none⟩⟩ [.postCart ⟨some 3, some 0⟩]).store.cart,
        1 ≤ r.quantity := by
  decide

/-- C8 amended: from a state with an empty cart, after any sequence of requests
in which every POST /api/cart body gives a quantity of at least 1 or omits it,
every cart row has quantity at least 1. -/
theorem cart_quantity_pos (env : Env) (st : State) (reqs : List Request)
    (hempty : st.store.cart = [])
    (hq : ∀ body, Request.postCart body ∈ reqs → 1 ≤ body.quantity.getD 1) :
    ∀ r ∈ (runRequests env st reqs).store.cart, 1 ≤ r.quantity := by
  have gen : ∀ (reqs : List Request) (st : State),
      (∀ r ∈ st.store.cart, 1 ≤ r.quantity) →
      (∀ body, Request.postCart body ∈ reqs → 1 ≤ body.quantity.getD 1) →
      ∀ r ∈ (runRequests env st reqs).store.cart, 1 ≤ r.quantity := by
    intro reqs
    induction reqs with
    | nil => intro st hinv _; exact hinv
    | cons req rest ih =>
      intro st hinv hq
      apply ih
      · apply handle_quantity env st req hinv
        intro body hb
        exact hq body (by rw [hb]; exact List.mem_cons_self _ _)
      · intro body hb
        exact hq body (List.mem_cons_of_mem _ hb)
  apply gen reqs st _ hq
  intro r hr
  rw [hempty] at hr
  cases hr

/-- Witness for C8 amended: an add with quantity 2, a repeated add with the
default quantity, a removal of an absent row and a login leave the single row
`(1, 3, 3)`, whose quantity is at least 1. -/
theorem cart_quantity_pos_witness :
    (runRequests testEnv ⟨seedStore, ⟨none⟩⟩
        [.postCart ⟨some 3, some 2⟩, .postCart ⟨some 3, none⟩, .deleteCartId 7,
         .postLogin ⟨some "admin", some "admin123"⟩]).store.cart = [⟨1, 3, 3⟩] ∧
    (1 : Int) ≤ (CartRow.mk 1 3 3).quantity :=
  ⟨by decide,
   cart_quantity_pos testEnv ⟨seedStore, ⟨none⟩⟩
    [.postCart ⟨some 3, some 2⟩, .postCart ⟨some 3, none⟩, .deleteCartId 7,
     .postLogin ⟨some "admin", some "admin123"⟩] (by decide) (by
      intro body hb
      simp only [List.mem_cons, Request.postCart.injEq, List.mem_singleton, reduceCtorEq,
        or_false, List.not_mem_nil] at hb
      rcases hb with rfl | rfl <;> decide) ⟨1, 3, 3⟩ (by decide)⟩

end ChocoShop

/-! ## Two calls of POST /api/cart in flight -/

namespace ChocoShop

/-- The handler cut at its awaits and run alone is the handler: three
statements from the start give the response and the store of `postCart`. -/
theorem runCall_three_eq_postCart (s : Store) (body : CartBody) :
    runCall s (.start body) 3 = (.done (postCart s body).1, (postCart s body).2) := by
  simp only [runCall, postCart, cartCallStep]
  by_cases hf : falsyId body.chocolate_id = true
  · simp only [hf, if_true, cartCallStep]
  · simp only [hf, if_false, Bool.false_eq_true]
    cases hsel : getAsync (cartWhereChocolateId s (body.chocolate_id.getD 0)) with
    | some x =>
      simp only [cartCallStep]
      cases hup : updateCartQuantity s (body.quantity.getD 1) (body.chocolate_id.getD 0) with
      | error msg => simp only [cartCallStep]
      | ok s1 => simp only [cartCallStep]
    | none =>
      simp only [cartCallStep]
      cases hins : insertCart s (body.chocolate_id.getD 0) (body.quantity.getD 1) with
      | error msg => simp only [cartCallStep]
      | ok p => simp only [cartCallStep]

theorem rowsFor_update (s s1 : Store) (q : Int) (c d : Nat)
    (h : updateCartQuantity s q c = .ok s1) : rowsFor s1 d = rowsFor s d := by
  rw [updateCartQuantity_eq_ok s s1 q c h]
  simp [rowsFor, cartWhereChocolateId_increment]

theorem rowsFor_eq_zero_of_none (s : Store) (c : Nat)
    (h : getAsync (cartWhereChocolateId s c) = none) : rowsFor s c = 0 := by
  unfold rowsFor
  cases hl : cartWhereChocolateId s c with
  | nil => rfl
  | cons x xs => simp [getAsync, hl] at h

theorem cartCallStep_quiet (s : Store) (call : CartCall) (h : call.quiet) :
    (cartCallStep s call).2 = s ∧ (cartCallStep s call).1.quiet := by
  cases call with
  | start body => exact absurd h (by simp [CartCall.quiet])
  | selected c q existing => exact absurd h (by simp [CartCall.quiet])
  | updated c => exact ⟨rfl, trivial⟩
  | inserted insertId => exact ⟨rfl, trivial⟩
  | done res => exact ⟨rfl, trivial⟩

theorem cartCallStep_safe (s : Store) (c : Nat) (call : CartCall)
    (hrows : rowsFor s c ≤ 1) (hsafe : call.safe s c) :
    rowsFor (cartCallStep s call).2 c ≤ 1 ∧ (cartCallStep s call).1.safe (cartCallStep s call).2 c := by
  cases call with
  | start body =>
    simp only [cartCallStep]
    split
    · exact ⟨hrows, trivial⟩
    · refine ⟨hrows, ?_⟩
      cases hsel : getAsync (cartWhereChocolateId s (body.chocolate_id.getD 0)) with
      | some x => trivial
      | none =>
        intro hc
        rw [hc] at hsel
        exact rowsFor_eq_zero_of_none s c hsel
  | selected c1 q existing =>
    cases existing with
    | some x =>
      simp only [cartCallStep]
      cases hup : updateCartQuantity s q c1 with
      | error msg => exact ⟨hrows, trivial⟩
      | ok s1 =>
        refine ⟨?_, trivial⟩
        simp only [rowsFor_update s s1 q c1 c hup]
        exact hrows
    | none =>
      simp only [cartCallStep]
      cases hins : insertCart s c1 q with
      | error msg => exact ⟨hrows, trivial⟩
      | ok p =>
        obtain ⟨insertId, s1⟩ := p
        refine ⟨?_, trivial⟩
        have hc := (cartWhereChocolateId_insert s s1 c1 c insertId q hins).2.2.2
        simp only [rowsFor, hc, List.length_append]
        by_cases hcc : c1 = c
        · have h0 : rowsFor s c = 0 := hsafe hcc
          simp only [rowsFor] at h0
          simp [hcc, h0]
        · simp only [rowsFor] at hrows
          simp [hcc, hrows]
  | updated c1 => exact ⟨hrows, trivial⟩
  | inserted insertId => exact ⟨hrows, trivial⟩
  | done res => exact ⟨hrows, trivial⟩

theorem safe_of_quiet (s : Store) (c : Nat) (call : CartCall) (h : call.quiet) : call.safe s c := by
  cases call with
  | start body => trivial
  | selected c1 q existing => exact absurd h (by simp [CartCall.quiet])
  | updated c1 => trivial
  | inserted insertId => trivial
  | done res => trivial

theorem twoCallsStep_serialised (t : TwoCalls) (c : Nat) (who : Bool)
    (h : t.serialised c) : (twoCallsStep t who).serialised c := by
  obtain ⟨hrows, hq | hq⟩ := h
  · cases who with
    | false =>
      have hstep := cartCallStep_quiet t.store t.first hq.1
      simp only [twoCallsStep, TwoCalls.serialised, Bool.false_eq_true, if_false, hstep.1]
      exact ⟨hrows, Or.inl ⟨hstep.2, hq.2⟩⟩
    | true =>
      have hstep := cartCallStep_safe t.store c t.second hrows hq.2
      simp only [twoCallsStep, TwoCalls.serialised, if_true]
      exact ⟨hstep.1, Or.inl ⟨hq.1, hstep.2⟩⟩
  · cases who with
    | false =>
      have hstep := cartCallStep_safe t.store c t.first hrows hq.2
      simp only [twoCallsStep, TwoCalls.serialised, Bool.false_eq_true, if_false]
      exact ⟨hstep.1, Or.inr ⟨hq.1, hstep.2⟩⟩
    | true =>
      have hstep := cartCallStep_quiet t.store t.second hq.1
      simp only [twoCallsStep, TwoCalls.serialised, if_true, hstep.1]
      exact ⟨hrows, Or.inr ⟨hstep.2, hq.2⟩⟩

theorem runSchedule_serialised (schedule : List Bool) (t : TwoCalls) (c : Nat)
    (h : t.serialised c) : (runSchedule t schedule).serialised c := by
  induction schedule generalizing t with
  | nil => exact h
  | cons who rest ih => exact ih _ (twoCallsStep_serialised t c who h)

theorem quiet_after_two (s : Store) (body : CartBody) :
    (runCall s (.start body) 2).1.quiet := by
  simp only [runCall, cartCallStep]
  by_cases hf : falsyId body.chocolate_id = true
  · simp only [hf, if_true, cartCallStep]
    trivial
  · simp only [hf, if_false, Bool.false_eq_true]
    cases hsel : getAsync (cartWhereChocolateId s (body.chocolate_id.getD 0)) with
    | some x =>
      simp only [cartCallStep]
      cases hup : updateCartQuantity s (body.quantity.getD 1) (body.chocolate_id.getD 0) with
      | error msg => trivial
      | ok s1 => trivial
    | none =>
      simp only [cartCallStep]
      cases hins : insertCart s (body.chocolate_id.getD 0) (body.quantity.getD 1) with
      | error msg => trivial
      | ok p => trivial

theorem rows_after_two (s : Store) (c : Nat) (body : CartBody) (h : rowsFor s c ≤ 1) :
    rowsFor (runCall s (.start body) 2).2 c ≤ 1 := by
  have h1 := cartCallStep_safe s c (.start body) h trivial
  have h2 := cartCallStep_safe _ c _ h1.1 h1.2
  exact h2.1

end ChocoShop

namespace ChocoShop

theorem cartCallStep_rows_mono (s : Store) (c : Nat) (call : CartCall) :
    rowsFor s c ≤ rowsFor (cartCallStep s call).2 c := by
  cases call with
  | start body =>
    simp only [cartCallStep]
    split <;> exact Nat.le_refl _
  | selected c1 q existing =>
    cases existing with
    | some x =>
      simp only [cartCallStep]
      cases hup : updateCartQuantity s q c1 with
      | error msg => exact Nat.le_refl _
      | ok s1 =>
        simp only [rowsFor_update s s1 q c1 c hup]
        exact Nat.le_refl _
    | none =>
      simp only [cartCallStep]
      cases hins : insertCart s c1 q with
      | error msg => exact Nat.le_refl _
      | ok p =>
        obtain ⟨insertId, s1⟩ := p
        have hc := (cartWhereChocolateId_insert s s1 c1 c insertId q hins).2.2.2
        simp only [rowsFor, hc, List.length_append]
        omega
  | updated c1 => exact Nat.le_refl _
  | inserted insertId => exact Nat.le_refl _
  | done res => exact Nat.le_refl _

theorem safe_of_occupied (s s1 : Store) (c : Nat) (call : CartCall)
    (hrows : rowsFor s c = 1) (hsafe : call.safe s c) : call.safe s1 c := by
  cases call with
  | start body => trivial
  | selected c1 q existing =>
    cases existing with
    | some x => trivial
    | none =>
      intro hc
      have := hsafe hc
      omega
  | updated c1 => trivial
  | inserted insertId => trivial
  | done res => trivial

theorem twoCallsStep_occupied (t : TwoCalls) (c : Nat) (who : Bool)
    (h : t.occupied c) : (twoCallsStep t who).occupied c := by
  obtain ⟨hrows, h1, h2⟩ := h
  cases who with
  | false =>
    have hstep := cartCallStep_safe t.store c t.first (Nat.le_of_eq hrows) h1
    have hmono := cartCallStep_rows_mono t.store c t.first
    simp only [twoCallsStep, TwoCalls.occupied, Bool.false_eq_true, if_false]
    exact ⟨by omega, hstep.2, safe_of_occupied t.store _ c t.second hrows h2⟩
  | true =>
    have hstep := cartCallStep_safe t.store c t.second (Nat.le_of_eq hrows) h2
    have hmono := cartCallStep_rows_mono t.store c t.second
    simp only [twoCallsStep, TwoCalls.occupied, if_true]
    exact ⟨by omega, safe_of_occupied t.store _ c t.first hrows h1, hstep.2⟩

theorem runSchedule_occupied (schedule : List Bool) (t : TwoCalls) (c : Nat)
    (h : t.occupied c) : (runSchedule t schedule).occupied c := by
  induction schedule generalizing t with
  | nil => exact h
  | cons who rest ih => exact ih _ (twoCallsStep_occupied t c who h)

/-- C10 as stated fails: on the seeded store with its empty cart, two calls for
chocolate 3 whose SELECT statements both run before either INSERT both see no
row, both insert and both answer 201; the cart ends with two rows for
chocolate 3. -/
theorem two_calls_both_insert :
    runSchedule ⟨seedStore, .start ⟨some 3, none⟩, .start ⟨some 3, none⟩⟩
        [false, true, false, true, false, true]
      = ⟨{ seedStore with cart := [⟨1, 3, 1⟩, ⟨2, 3, 1⟩], nextCartId := 3 },
         .done ⟨201, .row (some ⟨1, 3, 1⟩)⟩, .done ⟨201, .row (some ⟨2, 3, 1⟩)⟩⟩ ∧
    ¬ rowsFor (runSchedule ⟨seedStore, .start ⟨some 3, none⟩, .start ⟨some 3, none⟩⟩
        [false, true, false, true, false, true]).store 3 ≤ 1 := by
  decide

/-- C10 amended: two calls of POST /api/cart for the same chocolate_id `c`, on
a cart with at most one row for `c`, leave at most one row for `c` in every
interleaving of their statements when the cart already holds a row for `c`, or
when one call runs its SELECT and its write before the other call runs its
SELECT (the schedule opens with two statements of the same call). -/
theorem runSchedule_rows_le_one (s : Store) (c : Nat) (q1 q2 : Option Int)
    (schedule : List Bool) (h : rowsFor s c ≤ 1)
    (hs : rowsFor s c = 1 ∨ ∃ who rest, schedule = who :: who :: rest) :
    rowsFor (runSchedule ⟨s, .start ⟨some c, q1⟩, .start ⟨some c, q2⟩⟩ schedule).store c ≤ 1 := by
  rcases hs with h1 | ⟨who, rest, rfl⟩
  · have := runSchedule_occupied schedule ⟨s, .start ⟨some c, q1⟩, .start ⟨some c, q2⟩⟩ c
      ⟨h1, trivial, trivial⟩
    exact Nat.le_of_eq this.1
  · have key : (twoCallsStep (twoCallsStep ⟨s, .start ⟨some c, q1⟩, .start ⟨some c, q2⟩⟩ who)
        who).serialised c := by
      cases who with
      | false =>
        exact ⟨rows_after_two s c ⟨some c, q1⟩ h,
          Or.inl ⟨quiet_after_two s ⟨some c, q1⟩, trivial⟩⟩
      | true =>
        exact ⟨rows_after_two s c ⟨some c, q2⟩ h,
          Or.inr ⟨quiet_after_two s ⟨some c, q2⟩, trivial⟩⟩
    exact (runSchedule_serialised rest _ c key).1

/-- Witness for C10 amended: on the seeded store the first call runs its SELECT
and INSERT before the second call starts, and the read-backs interleave. -/
theorem runSchedule_rows_le_one_witness :
    rowsFor (runSchedule ⟨seedStore, .start ⟨some 3, some 2⟩, .start ⟨some 3, none⟩⟩
        [false, false, true, false, true, true]).store 3 ≤ 1 :=
  runSchedule_rows_le_one seedStore 3 (some 2) none [false, false, true, false, true, true]
    (by decide) (Or.inr ⟨false, [true, false, true, true], rfl⟩)

end ChocoShop

/-! ## The schema constraints are an invariant of the API -/

namespace ChocoShop

theorem insertChocolate_WF (s : Store) (name price img : String) (h : s.WF) :
    (insertChocolate s name price img).WF := by
  obtain ⟨h1, h2, h3, h4, h5, h6, h7, h8⟩ := h
  refine ⟨?_, h2, ?_, h4, ?_, h6, ?_, h8⟩
  · simp only [insertChocolate]
    omega
  · intro ch hch
    simp only [insertChocolate, List.mem_append, List.mem_singleton] at hch ⊢
    rcases hch with hch | rfl
    · have := h3 ch hch
      omega
    · simp only
      omega
  · simp only [insertChocolate, List.map_append, List.map_cons, List.map_nil]
    rw [List.nodup_append]
    refine ⟨h5, List.nodup_singleton _, ?_⟩
    intro a ha hb
    simp only [List.mem_singleton] at hb
    simp only [List.mem_map] at ha
    obtain ⟨ch, hch, rfl⟩ := ha
    have := h3 ch hch
    omega
  · intro r hr
    obtain ⟨ch, hch, he⟩ := h7 r hr
    exact ⟨ch, by simp only [insertChocolate, List.mem_append]; exact Or.inl hch, he⟩

theorem deleteChocolatesWhereId_WF (s : Store) (id : Nat) (h : s.WF) :
    (deleteChocolatesWhereId s id).WF := by
  obtain ⟨h1, h2, h3, h4, h5, h6, h7, h8⟩ := h
  refine ⟨h1, h2, ?_, ?_, ?_, ?_, ?_, ?_⟩
  · intro ch hch
    exact h3 ch (List.mem_of_mem_filter hch)
  · intro r hr
    exact h4 r (List.mem_of_mem_filter hr)
  · exact h5.sublist ((List.filter_sublist _).map _)
  · exact h6.sublist ((List.filter_sublist _).map _)
  · intro r hr
    simp only [deleteChocolatesWhereId, List.mem_filter] at hr ⊢
    obtain ⟨ch, hch, he⟩ := h7 r hr.1
    refine ⟨ch, ⟨hch, ?_⟩, he⟩
    rw [he]
    exact hr.2
  · intro r hr
    exact h8 r (List.mem_of_mem_filter hr)

theorem deleteCartWhereId_WF (s : Store) (id : Nat) (h : s.WF) :
    (deleteCartWhereId s id).WF := by
  obtain ⟨h1, h2, h3, h4, h5, h6, h7, h8⟩ := h
  refine ⟨h1, h2, h3, ?_, h5, ?_, ?_, ?_⟩
  · intro r hr
    exact h4 r (List.mem_of_mem_filter hr)
  · exact h6.sublist ((List.filter_sublist _).map _)
  · intro r hr
    exact h7 r (List.mem_of_mem_filter hr)
  · intro r hr
    exact h8 r (List.mem_of_mem_filter hr)

theorem updateCartQuantity_WF (s s1 : Store) (q : Int) (c : Nat) (h : s.WF)
    (hup : updateCartQuantity s q c = .ok s1) : s1.WF := by
  obtain ⟨h1, h2, h3, h4, h5, h6, h7, h8⟩ := h
  have hall : s.cart.all (fun r => !(r.chocolate_id == c) || fitsInt (r.quantity + q)) = true := by
    unfold updateCartQuantity at hup
    split at hup
    · assumption
    · cases hup
  rw [List.all_eq_true] at hall
  rw [updateCartQuantity_eq_ok s s1 q c hup]
  have hid : (incrementQuantity s q c).cart.map (fun r => r.id) = s.cart.map (fun r => r.id) := by
    simp only [incrementQuantity, List.map_map]
    apply List.map_congr_left
    intro x _
    simp only [Function.comp]
    split <;> rfl
  refine ⟨h1, h2, h3, ?_, h5, ?_, ?_, ?_⟩
  · intro r hr
    simp only [incrementQuantity, List.mem_map] at hr
    obtain ⟨x, hx, rfl⟩ := hr
    have := h4 x hx
    split <;> exact this
  · rw [hid]
    exact h6
  · intro r hr
    simp only [incrementQuantity, List.mem_map] at hr
    obtain ⟨x, hx, rfl⟩ := hr
    have := h7 x hx
    split <;> exact this
  · intro r hr
    simp only [incrementQuantity, List.mem_map] at hr
    obtain ⟨x, hx, rfl⟩ := hr
    have hx8 := h8 x hx
    have hxa := hall x hx
    by_cases hc : x.chocolate_id = c
    · simpa [hc] using hxa
    · simpa [hc] using hx8

theorem insertCart_WF (s s1 : Store) (c insertId : Nat) (q : Int) (h : s.WF)
    (hins : insertCart s c q = .ok (insertId, s1)) : s1.WF := by
  obtain ⟨h1, h2, h3, h4, h5, h6, h7, h8⟩ := h
  have hq := insertCart_fits s s1 c insertId q hins
  unfold insertCart at hins
  split at hins
  · cases hins
  · split at hins
    · rename_i hany
      injection hins with hins
      injection hins with _ hs
      subst hs
      refine ⟨h1, ?_, h3, ?_, h5, ?_, ?_, ?_⟩
      · simp only
        omega
      · intro r hr
        simp only [List.mem_append, List.mem_singleton] at hr ⊢
        rcases hr with hr | rfl
        · have := h4 r hr
          omega
        · simp only
          omega
      · simp only [List.map_append, List.map_cons, List.map_nil]
        rw [List.nodup_append]
        refine ⟨h6, List.nodup_singleton _, ?_⟩
        intro a ha hb
        simp only [List.mem_singleton] at hb
        simp only [List.mem_map] at ha
        obtain ⟨r, hr, rfl⟩ := ha
        have := h4 r hr
        omega
      · intro r hr
        simp only [List.mem_append, List.mem_singleton] at hr
        rcases hr with hr | rfl
        · exact h7 r hr
        · simpa [List.any_eq_true] using hany
      · intro r hr
        simp only [List.mem_append, List.mem_singleton] at hr
        rcases hr with hr | rfl
        · exact h8 r hr
        · exact hq
    · cases hins

theorem postCart_WF (s : Store) (body : CartBody) (h : s.WF) : (postCart s body).2.WF := by
  unfold postCart
  simp only
  by_cases hf : falsyId body.chocolate_id = true
  · rw [if_pos hf]
    exact h
  · rw [if_neg hf]
    cases hsel : getAsync (cartWhereChocolateId s (body.chocolate_id.getD 0)) with
    | some x =>
      cases hup : updateCartQuantity s (body.quantity.getD 1) (body.chocolate_id.getD 0) with
      | error msg => exact h
      | ok s1 => exact updateCartQuantity_WF s s1 _ _ h hup
    | none =>
      cases hins : insertCart s (body.chocolate_id.getD 0) (body.quantity.getD 1) with
      | error msg => exact h
      | ok p =>
        obtain ⟨insertId, s1⟩ := p
        exact insertCart_WF s s1 _ insertId _ h hins

theorem postAddChocolate_WF (s : Store) (body : AddChocolateBody) (h : s.WF) :
    (postAddChocolate s body).2.WF := by
  unfold postAddChocolate
  split
  · exact h
  · simp only
    split
    · exact h
    · exact insertChocolate_WF s _ _ _ h

/-- Every handler keeps the constraints of the schema. -/
theorem handle_WF (env : Env) (st : State) (req : Request) (h : st.store.WF) :
    (handle env st req).2.store.WF := by
  cases req with
  | postAddChocolate body => exact postAddChocolate_WF st.store body h
  | deleteChocolatesId id =>
    simp only [handle, deleteChocolatesId]
    split
    · exact h
    · exact deleteChocolatesWhereId_WF st.store id h
  | getCart => exact h
  | postCart body => exact postCart_WF st.store body h
  | deleteCartId id => exact deleteCartWhereId_WF st.store id h
  | postLogin body => exact h
  | postLogout => exact h
  | getMe => exact h

/-- The constraints of the schema hold after any sequence of requests. -/
theorem runRequests_WF (env : Env) (reqs : List Request) (st : State) (h : st.store.WF) :
    (runRequests env st reqs).store.WF := by
  induction reqs generalizing st with
  | nil => exact h
  | cons req rest ih => exact ih _ (handle_WF env st req h)

/-- A store right after table creation satisfies the constraints. -/
theorem empty_WF (admins : List Admin) : (Store.mk [] [] admins 1 1).WF := by
  simp [Store.WF]

end ChocoShop
